import Mathlib

/-!
Verification of the libdmtx Emscripten wrapper (`src/vendor/libdmtx-wrapper.c`).

This file gives a shallow embedding of `scanImageBuffer` and its helper
`strdup_malloc`.  The external libdmtx calls (`dmtxImageCreate`,
`dmtxDecodeCreate`, `dmtxDecodeMatrix`) and the C allocator are modelled by an
explicit environment `DmtxEnv` recording their outcomes; the control flow of
the wrapper itself, string construction and resource bookkeeping are translated
line by line from the C source.

C strings are modelled as `List Nat` of byte values (without the terminating
NUL); a `NULL` `char*` is `Option.none`.  C `int` is modelled as `Int`.
-/

namespace DatamatrixWrapper

/-- The kinds of libdmtx resources the wrapper creates and destroys:
`DmtxImage`, `DmtxDecode` and `DmtxMessage`. -/
inductive Res where
  | image
  | decode
  | message
deriving DecidableEq, Repr

/-- The fields of the libdmtx `DmtxMessage` structure that the wrapper reads:
`output` is the decoded byte buffer (`none` models a NULL pointer) and
`outputLength` its reported length (a C `int`). -/
structure DmtxMessage where
  output : Option (List Nat)
  outputLength : Int
deriving DecidableEq, Repr

/-- Outcomes of the external calls made by one invocation of
`scanImageBuffer`: whether `dmtxImageCreate` and `dmtxDecodeCreate` return
non-NULL, the message returned by the single `dmtxDecodeMatrix` pass, whether
the `malloc` for the JSON buffer succeeds, and whether the `malloc` inside
`strdup_malloc` succeeds. -/
structure DmtxEnv where
  imageOk : Bool
  decodeOk : Bool
  msg : Option DmtxMessage
  mallocOk : Bool
  strdupOk : Bool
deriving DecidableEq, Repr

/-- C `strlen` over a byte buffer: the number of bytes before the first NUL.
(libdmtx NUL-terminates `msg->output`, so the bytes before the first zero in
the modelled buffer are exactly what `strlen` counts.) -/
def cstrlen (bs : List Nat) : Nat :=
  (bs.takeWhile (fun c => c != 0)).length

/-- Helper `strdup_malloc` (lines 26-33 of the source): `NULL` in gives `NULL` out,
`malloc` failure gives `NULL`, otherwise the bytes are copied unchanged. -/
def strdup_malloc (s : Option (List Nat)) (mallocOk : Bool) : Option (List Nat) :=
  match s with
  | none => none
  | some bs => if mallocOk then some bs else none

/-- One iteration of the serialization loop (lines 79-84): backslash `0x5C`
and double quote `0x22` are prefixed with a backslash, any other byte with
value at least `0x20` passes through unchanged, and bytes below `0x20` are
replaced by `?` (`0x3F`).  The C code compares a signed `char` against the
backslash and quote characters and casts to `unsigned char` for the `>= 32`
test; on byte values these tests coincide with the ones below. -/
def escapeByte (c : Nat) : List Nat :=
  if c = 0x5C ∨ c = 0x22 then [0x5C, c]
  else if 0x20 ≤ c then [c]
  else [0x3F]

/-- The serialization loop applied to a whole buffer. -/
def escapeBytes : List Nat → List Nat
  | [] => []
  | c :: r => escapeByte c ++ escapeBytes r

/-- The bytes emitted before the payload: the characters of the literal
prefix consisting of a left bracket, a left curly brace and the quoted key
`"data":` followed by an opening quote. -/
def jsonHeader : List Nat := [0x5B, 0x7B, 0x22, 0x64, 0x61, 0x74, 0x61, 0x22, 0x3A, 0x22]

/-- The bytes emitted after the payload: closing quote, right curly brace,
right bracket. -/
def jsonFooter : List Nat := [0x22, 0x7D, 0x5D]

/-- The bytes of the literal `"[]"`. -/
def emptyJson : List Nat := [0x5B, 0x5D]

/-- The JSON construction of lines 75-86: header, then the escaped first
`outLen` bytes of `outStr`, then the footer.  (The terminating NUL is not
part of the modelled string contents.) -/
def buildJson (outStr : List Nat) (outLen : Nat) : List Nat :=
  jsonHeader ++ escapeBytes (outStr.take outLen) ++ jsonFooter

/-- Result of the `outStr`/`outLen` selection of lines 57-65, together with a
flag recording whether the `else if` branch of line 62 assigned them. -/
structure OutSel where
  outStr : Option (List Nat)
  outLen : Int
  deadBranch : Bool
deriving DecidableEq, Repr

/-- Lines 57-65 of the source: if `msg->output != NULL` then `outStr` is the
output buffer and `outLen` its `strlen`; otherwise, if
`msg->outputLength > 0 && msg->output != NULL`, `outStr` is the buffer and
`outLen` is `msg->outputLength` (this is the defensive branch); otherwise
both stay at their initial values `NULL` and `0`. -/
def computeOut (m : DmtxMessage) : OutSel :=
  if m.output.isSome then
    { outStr := m.output, outLen := Int.ofNat (cstrlen (m.output.getD [])), deadBranch := false }
  else if m.outputLength > 0 ∧ m.output.isSome then
    { outStr := m.output, outLen := m.outputLength, deadBranch := true }
  else
    { outStr := none, outLen := 0, deadBranch := false }

/-- What one call of `scanImageBuffer` returns (`none` models a NULL
`char*`), together with the list of libdmtx resources successfully created
during the call and the list of resources destroyed before returning, in
order. -/
structure ScanResult where
  ret : Option (List Nat)
  created : List Res
  destroyed : List Res
deriving DecidableEq, Repr

/-- The function `scanImageBuffer` (lines 35-97), translated branch by branch:
* invalid input (`!rgba || width <= 0 || height <= 0`) returns
  `strdup_malloc("[]")` before any library call;
* a NULL result from `dmtxImageCreate` returns `strdup_malloc("[]")`;
* a NULL result from `dmtxDecodeCreate` destroys the image and returns
  `strdup_malloc("[]")`;
* a NULL `dmtxDecodeMatrix` result destroys decoder and image and returns
  `strdup_malloc("[]")`;
* otherwise `outStr`/`outLen` are selected by `computeOut`; when both a
  buffer and a positive length are present the JSON is built in a fresh
  `malloc`-ed buffer (falling back to `strdup_malloc("[]")` when that
  `malloc` fails), else the result is `strdup_malloc("[]")`; finally
  message, decoder and image are destroyed, in that order. -/
def scanImageBuffer (rgba : Option (List Nat)) (width height : Int) (env : DmtxEnv) :
    ScanResult :=
  if rgba.isNone ∨ width ≤ 0 ∨ height ≤ 0 then
    { ret := strdup_malloc (some emptyJson) env.strdupOk, created := [], destroyed := [] }
  else if env.imageOk = false then
    { ret := strdup_malloc (some emptyJson) env.strdupOk, created := [], destroyed := [] }
  else if env.decodeOk = false then
    { ret := strdup_malloc (some emptyJson) env.strdupOk,
      created := [Res.image], destroyed := [Res.image] }
  else
    match env.msg with
    | none =>
        { ret := strdup_malloc (some emptyJson) env.strdupOk,
          created := [Res.image, Res.decode],
          destroyed := [Res.decode, Res.image] }
    | some m =>
        let sel := computeOut m
        let json : Option (List Nat) :=
          match sel.outStr with
          | some bs =>
              if 0 < sel.outLen then
                if env.mallocOk then some (buildJson bs sel.outLen.toNat)
                else strdup_malloc (some emptyJson) env.strdupOk
              else strdup_malloc (some emptyJson) env.strdupOk
          | none => strdup_malloc (some emptyJson) env.strdupOk
        { ret := json,
          created := [Res.image, Res.decode, Res.message],
          destroyed := [Res.message, Res.decode, Res.image] }

/-!
A JSON grammar, used to state that the output is a syntactically valid JSON
array.

`Json` is an abstract syntax of JSON values (numbers are omitted — the
serializer never emits them, and a byte string derivable without them is a
fortiori valid JSON).  `Json.render` produces the bytes of the standard
textual form, escaping only quote and backslash inside strings, and
`Json.wf` requires every string byte to lie in `[0x20, 0xFF]`, so that a
rendered well-formed value is syntactically valid byte-level JSON. -/

inductive Json where
  | jnull
  | jbool (b : Bool)
  | jstr (s : List Nat)
  | jarr (elems : List Json)
  | jobj (members : List (List Nat × Json))

/-- Minimal JSON string escaping: backslash-escape quote and backslash,
leave everything else alone. -/
def jsonEscape : List Nat → List Nat
  | [] => []
  | c :: r => (if c = 0x22 ∨ c = 0x5C then [0x5C, c] else [c]) ++ jsonEscape r

mutual

/-- Standard textual rendering of a JSON value, as bytes. -/
def Json.render : Json → List Nat
  | .jnull => [0x6E, 0x75, 0x6C, 0x6C]
  | .jbool true => [0x74, 0x72, 0x75, 0x65]
  | .jbool false => [0x66, 0x61, 0x6C, 0x73, 0x65]
  | .jstr s => 0x22 :: (jsonEscape s ++ [0x22])
  | .jarr xs => 0x5B :: (Json.renderElems xs ++ [0x5D])
  | .jobj ms => 0x7B :: (Json.renderMembers ms ++ [0x7D])

/-- Comma-separated rendering of array elements. -/
def Json.renderElems : List Json → List Nat
  | [] => []
  | [x] => Json.render x
  | x :: y :: xs => Json.render x ++ 0x2C :: Json.renderElems (y :: xs)

/-- Comma-separated rendering of object members (`"key":value`). -/
def Json.renderMembers : List (List Nat × Json) → List Nat
  | [] => []
  | [(k, v)] => 0x22 :: (jsonEscape k ++ [0x22]) ++ 0x3A :: Json.render v
  | (k, v) :: m :: ms =>
      0x22 :: (jsonEscape k ++ [0x22]) ++ 0x3A ::
        (Json.render v ++ 0x2C :: Json.renderMembers (m :: ms))

end

/-- A byte that may appear unescaped inside a rendered JSON string: at least
`0x20` (no raw control bytes) and at most `0xFF` (a byte at all). -/
def jsonStrByteOk (c : Nat) : Bool := decide (0x20 ≤ c) && decide (c ≤ 0xFF)

mutual

/-- Well-formedness of a JSON value: every string byte is in `[0x20, 0xFF]`,
so `Json.render` yields a syntactically valid byte string. -/
def Json.wf : Json → Bool
  | .jnull => true
  | .jbool _ => true
  | .jstr s => s.all jsonStrByteOk
  | .jarr xs => Json.wfElems xs
  | .jobj ms => Json.wfMembers ms

/-- Well-formedness of a list of array elements. -/
def Json.wfElems : List Json → Bool
  | [] => true
  | x :: xs => Json.wf x && Json.wfElems xs

/-- Well-formedness of a list of object members. -/
def Json.wfMembers : List (List Nat × Json) → Bool
  | [] => true
  | (k, v) :: ms => k.all jsonStrByteOk && Json.wf v && Json.wfMembers ms

end

/-- Predicate: `s` is the byte string of a syntactically valid JSON array,
that is, the rendering of some well-formed `Json.jarr`. -/
def IsJsonArray (s : List Nat) : Prop :=
  ∃ xs : List Json, Json.wf (Json.jarr xs) = true ∧ Json.render (Json.jarr xs) = s

/-- Predicate: `s` is the byte string of a syntactically valid JSON array
with exactly `n` top-level elements. -/
def IsJsonArrayOfSize (n : Nat) (s : List Nat) : Prop :=
  ∃ xs : List Json,
    xs.length = n ∧ Json.wf (Json.jarr xs) = true ∧ Json.render (Json.jarr xs) = s

/-- Replacement of control bytes by `?`, the lossy part of the escaping
policy of the wrapper. -/
def sanitize (l : List Nat) : List Nat :=
  l.map (fun c => if c < 0x20 then 0x3F else c)

/-- All entries of `l` are byte values. -/
def bytesOk (l : List Nat) : Bool := l.all (fun c => decide (c ≤ 0xFF))

/-- The decoded message buffer of `e` (when present) holds byte values. -/
def DmtxEnv.msgBytesOk (e : DmtxEnv) : Bool :=
  match e.msg with
  | none => true
  | some m =>
    match m.output with
    | none => true
    | some bs => bytesOk bs

/-- Is `c` a UTF-8 continuation byte (`0x80`-`0xBF`)? -/
def isCont (c : Nat) : Bool := decide (0x80 ≤ c) && decide (c ≤ 0xBF)

/-- UTF-8 validity of a byte sequence, following RFC 3629: ASCII bytes stand
alone; two-byte sequences start at `0xC2`-`0xDF` (no overlong forms);
three-byte sequences exclude overlong (`0xE0` needs `0xA0`-`0xBF` next) and
surrogates (`0xED` needs `0x80`-`0x9F` next); four-byte sequences stop at
`U+10FFFF` (`0xF0` needs `0x90`-`0xBF`, `0xF4` needs `0x80`-`0x8F`). -/
def isValidUtf8 : List Nat → Bool
  | [] => true
  | c :: r =>
    if c ≤ 0x7F then isValidUtf8 r
    else if 0xC2 ≤ c ∧ c ≤ 0xDF then
      match r with
      | c2 :: r2 => isCont c2 && isValidUtf8 r2
      | [] => false
    else if c = 0xE0 then
      match r with
      | c2 :: c3 :: r3 =>
          decide (0xA0 ≤ c2) && decide (c2 ≤ 0xBF) && isCont c3 && isValidUtf8 r3
      | _ => false
    else if c = 0xED then
      match r with
      | c2 :: c3 :: r3 =>
          decide (0x80 ≤ c2) && decide (c2 ≤ 0x9F) && isCont c3 && isValidUtf8 r3
      | _ => false
    else if 0xE1 ≤ c ∧ c ≤ 0xEF then
      match r with
      | c2 :: c3 :: r3 => isCont c2 && isCont c3 && isValidUtf8 r3
      | _ => false
    else if c = 0xF0 then
      match r with
      | c2 :: c3 :: c4 :: r4 =>
          decide (0x90 ≤ c2) && decide (c2 ≤ 0xBF) && isCont c3 && isCont c4 &&
            isValidUtf8 r4
      | _ => false
    else if 0xF1 ≤ c ∧ c ≤ 0xF3 then
      match r with
      | c2 :: c3 :: c4 :: r4 => isCont c2 && isCont c3 && isCont c4 && isValidUtf8 r4
      | _ => false
    else if c = 0xF4 then
      match r with
      | c2 :: c3 :: c4 :: r4 =>
          decide (0x80 ≤ c2) && decide (c2 ≤ 0x8F) && isCont c3 && isCont c4 &&
            isValidUtf8 r4
      | _ => false
    else false

/-- An environment in which every external call succeeds and the decode
returns the given message. -/
def mkEnv (m : Option DmtxMessage) : DmtxEnv :=
  { imageOk := true, decodeOk := true, msg := m, mallocOk := true, strdupOk := true }

/-- The key bytes of the single detection object: `d a t a`. -/
def dataKey : List Nat := [0x64, 0x61, 0x74, 0x61]

/-!
Helper lemmas.
-/

theorem escapeByte_sanitize (c : Nat) :
    escapeByte c =
      (if (if c < 0x20 then 0x3F else c) = 0x22 ∨ (if c < 0x20 then 0x3F else c) = 0x5C
       then [0x5C, if c < 0x20 then 0x3F else c]
       else [if c < 0x20 then 0x3F else c]) := by
  by_cases h1 : c = 0x5C
  · subst h1; decide
  by_cases h2 : c = 0x22
  · subst h2; decide
  by_cases h3 : c < 0x20
  · simp [escapeByte, h1, h2, h3, Nat.not_le.mpr h3]
  · simp [escapeByte, h1, h2, h3, Nat.not_lt.mp h3]

theorem escapeBytes_eq_jsonEscape_sanitize (l : List Nat) :
    escapeBytes l = jsonEscape (sanitize l) := by
  induction l with
  | nil => rfl
  | cons c r ih =>
      simp only [escapeBytes, sanitize, List.map_cons, jsonEscape]
      rw [escapeByte_sanitize c, ih]
      rfl

theorem escapeByte_length_le (c : Nat) : (escapeByte c).length ≤ 2 := by
  unfold escapeByte
  split
  · simp
  · split <;> simp

theorem escapeBytes_length_le (l : List Nat) :
    (escapeBytes l).length ≤ 2 * l.length := by
  induction l with
  | nil => simp [escapeBytes]
  | cons c r ih =>
      simp only [escapeBytes, List.length_append, List.length_cons]
      have := escapeByte_length_le c
      omega

theorem sanitize_all_ok {l : List Nat} (h : bytesOk l = true) :
    (sanitize l).all jsonStrByteOk = true := by
  rw [List.all_eq_true]
  intro c hc
  rcases List.mem_map.mp hc with ⟨b, hb, rfl⟩
  have hble : b ≤ 0xFF := by
    have := (List.all_eq_true.mp h) b hb
    simpa [bytesOk] using of_decide_eq_true this
  by_cases hlt : b < 0x20
  · simp [jsonStrByteOk, hlt]
  · simp [jsonStrByteOk, hlt, Nat.not_lt.mp hlt, hble]

theorem render_single_detection (s : List Nat) :
    Json.render (Json.jarr [Json.jobj [(dataKey, Json.jstr s)]]) =
      jsonHeader ++ jsonEscape s ++ jsonFooter := by
  simp [Json.render, Json.renderElems, Json.renderMembers, jsonHeader, jsonFooter, dataKey,
    jsonEscape]

theorem wf_single_detection {s : List Nat} (h : s.all jsonStrByteOk = true) :
    Json.wf (Json.jarr [Json.jobj [(dataKey, Json.jstr s)]]) = true := by
  simp [Json.wf, Json.wfElems, Json.wfMembers, dataKey, h]
  decide

theorem buildJson_isJsonArrayOfSize {bs : List Nat} (n : Nat)
    (h : bytesOk (bs.take n) = true) :
    IsJsonArrayOfSize 1 (buildJson bs n) := by
  refine ⟨[Json.jobj [(dataKey, Json.jstr (sanitize (bs.take n)))]], rfl, ?_, ?_⟩
  · exact wf_single_detection (sanitize_all_ok h)
  · rw [render_single_detection, buildJson, escapeBytes_eq_jsonEscape_sanitize]

theorem emptyJson_isJsonArrayOfSize : IsJsonArrayOfSize 0 emptyJson :=
  ⟨[], rfl, rfl, rfl⟩

theorem isJsonArray_of_size {n : Nat} {s : List Nat} (h : IsJsonArrayOfSize n s) :
    IsJsonArray s := by
  rcases h with ⟨xs, _, hwf, hr⟩
  exact ⟨xs, hwf, hr⟩

theorem take_cstrlen (bs : List Nat) :
    bs.take (cstrlen bs) = bs.takeWhile (fun c => c != 0) := by
  induction bs with
  | nil => rfl
  | cons c r ih =>
      by_cases h : c = 0
      · subst h; simp [cstrlen, List.takeWhile]
      · have hb : (c != 0) = true := by simpa using h
        simp [cstrlen, List.takeWhile, hb] at ih ⊢
        simpa [cstrlen] using ih

theorem bytesOk_take {l : List Nat} (n : Nat) (h : bytesOk l = true) :
    bytesOk (l.take n) = true := by
  rw [bytesOk, List.all_eq_true] at h ⊢
  exact fun c hc => h c (List.take_subset n l hc)

theorem strdup_malloc_empty_eq_some {ok : Bool} {s : List Nat}
    (h : strdup_malloc (some emptyJson) ok = some s) : s = emptyJson := by
  cases ok <;> simp [strdup_malloc] at h
  exact h.symm

/-- Branch analysis of `scanImageBuffer`: any returned string is either the
literal `"[]"` or the single-detection JSON built from a successfully
decoded, NUL-terminated, non-empty payload. -/
theorem scan_ret_cases (rgba : Option (List Nat)) (w h : Int) (env : DmtxEnv) (s : List Nat)
    (hs : (scanImageBuffer rgba w h env).ret = some s) :
    s = emptyJson ∨
      ∃ m bs, env.msg = some m ∧ m.output = some bs ∧ 0 < cstrlen bs ∧
        env.mallocOk = true ∧ s = buildJson bs (cstrlen bs) := by
  unfold scanImageBuffer at hs
  split at hs
  · exact Or.inl (strdup_malloc_empty_eq_some hs)
  · split at hs
    · exact Or.inl (strdup_malloc_empty_eq_some hs)
    · split at hs
      · exact Or.inl (strdup_malloc_empty_eq_some hs)
      · split at hs
        · exact Or.inl (strdup_malloc_empty_eq_some hs)
        · rename_i m heq
          rcases m with ⟨mo, mlen⟩
          cases mo with
          | none =>
              simp [computeOut] at hs
              exact Or.inl (strdup_malloc_empty_eq_some hs)
          | some bs =>
              simp [computeOut] at hs
              split at hs
              · split at hs
                · rename_i hlen hma
                  exact Or.inr ⟨⟨some bs, mlen⟩, bs, heq, rfl, hlen, hma,
                    (Option.some_injective _ hs).symm⟩
                · exact Or.inl (strdup_malloc_empty_eq_some hs)
              · exact Or.inl (strdup_malloc_empty_eq_some hs)

/-- Branch analysis of `scanImageBuffer`: the successful-decode path. -/
theorem scan_success_eq (rgba : Option (List Nat)) (w h : Int) (env : DmtxEnv)
    (m : DmtxMessage) (bs : List Nat)
    (hrgba : rgba ≠ none) (hw : 0 < w) (hh : 0 < h)
    (hio : env.imageOk = true) (hdo : env.decodeOk = true)
    (hm : env.msg = some m) (hbs : m.output = some bs)
    (hlen : 0 < cstrlen bs) (hma : env.mallocOk = true) :
    (scanImageBuffer rgba w h env).ret = some (buildJson bs (cstrlen bs)) := by
  have hinv : ¬(rgba.isNone = true ∨ w ≤ 0 ∨ h ≤ 0) := by
    push_neg
    refine ⟨?_, by omega, by omega⟩
    cases rgba with
    | none => exact absurd rfl hrgba
    | some v => simp
  unfold scanImageBuffer
  rw [if_neg hinv, if_neg (by simp [hio]), if_neg (by simp [hdo]), hm]
  rcases m with ⟨mo, mlen⟩
  simp only at hbs
  subst hbs
  simp [computeOut, hlen, hma]

/-- Branch analysis of `scanImageBuffer`: every failure class (invalid
input, image creation failure, decoder creation failure, no message, absent
or empty decoded output) yields the literal `"[]"` when the allocation
inside `strdup_malloc` succeeds. -/
theorem scan_fail_eq (rgba : Option (List Nat)) (w h : Int) (env : DmtxEnv)
    (hsd : env.strdupOk = true)
    (hfail : (rgba = none ∨ w ≤ 0 ∨ h ≤ 0) ∨
      env.imageOk = false ∨ env.decodeOk = false ∨ env.msg = none ∨
      ∃ m, env.msg = some m ∧ (m.output = none ∨ cstrlen (m.output.getD []) = 0)) :
    (scanImageBuffer rgba w h env).ret = some emptyJson := by
  have hempty : strdup_malloc (some emptyJson) env.strdupOk = some emptyJson := by
    simp [strdup_malloc, hsd]
  unfold scanImageBuffer
  split
  · exact hempty
  · rename_i hnotinv
    split
    · exact hempty
    · rename_i hionot
      split
      · exact hempty
      · rename_i hdonot
        split
        · exact hempty
        · rename_i m heq
          have hio : env.imageOk = true := by
            cases hcase : env.imageOk with
            | false => exact absurd hcase hionot
            | true => rfl
          have hdo : env.decodeOk = true := by
            cases hcase : env.decodeOk with
            | false => exact absurd hcase hdonot
            | true => rfl
          have hm : ∃ mm, env.msg = some mm ∧
              (mm.output = none ∨ cstrlen (mm.output.getD []) = 0) := by
            rcases hfail with hbad | hbad | hbad | hbad | hbad
            · exfalso
              apply hnotinv
              rcases hbad with hb | hb | hb
              · subst hb; exact Or.inl rfl
              · exact Or.inr (Or.inl hb)
              · exact Or.inr (Or.inr hb)
            · exact absurd hbad (by simp [hio])
            · exact absurd hbad (by simp [hdo])
            · rw [heq] at hbad; exact absurd hbad (by simp)
            · exact hbad
          rcases hm with ⟨mm, hmm, hout⟩
          rw [heq] at hmm
          have hmeq : m = mm := by
            exact Option.some_injective _ hmm
          subst hmeq
          rcases m with ⟨mo, mlen⟩
          cases mo with
          | none =>
              simp [computeOut, hempty, hsd, strdup_malloc]
          | some bs =>
              simp only at hout
              rcases hout with hout | hout
              · exact absurd hout (by simp)
              · simp only [Option.getD_some] at hout
                simp [computeOut, hout, hempty, hsd, strdup_malloc]

/-!
Claim theorems.
-/

/-- C1: for every call to `scanImageBuffer` with a null pixel buffer, or
width ≤ 0, or height ≤ 0, the function returns the string `"[]"`
immediately without attempting any decode: no image, decoder or message is
created (and none destroyed).  The returned string is `"[]"` whenever the
`malloc` inside `strdup_malloc` succeeds. -/
theorem scanImageBuffer_invalid_returns_empty (rgba : Option (List Nat)) (w h : Int)
    (env : DmtxEnv) (hinv : rgba = none ∨ w ≤ 0 ∨ h ≤ 0) :
    (scanImageBuffer rgba w h env).created = [] ∧
    (scanImageBuffer rgba w h env).destroyed = [] ∧
    (env.strdupOk = true → (scanImageBuffer rgba w h env).ret = some emptyJson) := by
  have hinv' : rgba.isNone = true ∨ w ≤ 0 ∨ h ≤ 0 := by
    rcases hinv with hcase | hcase | hcase
    · left; simp [hcase]
    · exact Or.inr (Or.inl hcase)
    · exact Or.inr (Or.inr hcase)
  unfold scanImageBuffer
  rw [if_pos hinv']
  refine ⟨rfl, rfl, fun hsd => ?_⟩
  simp [strdup_malloc, hsd]

theorem scanImageBuffer_invalid_returns_empty_witness :
    (scanImageBuffer none 5 7 (mkEnv none)).created = [] ∧
    (scanImageBuffer none 5 7 (mkEnv none)).destroyed = [] ∧
    ((mkEnv none).strdupOk = true →
      (scanImageBuffer none 5 7 (mkEnv none)).ret = some emptyJson) :=
  scanImageBuffer_invalid_returns_empty none 5 7 (mkEnv none) (Or.inl rfl)

/-- C2 counterexample: the claim says every returned string is UTF-8 text.
It is not: with a successfully decoded payload consisting of the single
byte `0xFF` (libdmtx byte-mode payloads are arbitrary binary), every
external call succeeding, the wrapper returns the bytes
`[{"data":"<0xFF>"}]`, which contain a lone `0xFF` byte and are not a valid
UTF-8 encoding of any text. -/
theorem scanImageBuffer_output_not_utf8 :
    (scanImageBuffer (some [0, 0, 0, 0]) 1 1 (mkEnv (some ⟨some [0xFF], 1⟩))).ret
        = some (jsonHeader ++ [0xFF] ++ jsonFooter) ∧
    isValidUtf8 (jsonHeader ++ [0xFF] ++ jsonFooter) = false := by
  constructor <;> decide

/-- C2 (amended): for every input whose decoded message buffer holds byte
values, any (non-NULL) string returned by `scanImageBuffer` is a
syntactically valid JSON array at the byte level; it is not always valid
UTF-8, because payload bytes ≥ 0x80 are passed through verbatim. -/
theorem scanImageBuffer_output_json_array (rgba : Option (List Nat)) (w h : Int)
    (env : DmtxEnv) (s : List Nat) (hb : env.msgBytesOk = true)
    (hs : (scanImageBuffer rgba w h env).ret = some s) :
    IsJsonArray s := by
  rcases scan_ret_cases rgba w h env s hs with hcase | ⟨m, bs, hm, hout, hlen, hma, hcase⟩
  · rw [hcase]
    exact isJsonArray_of_size emptyJson_isJsonArrayOfSize
  · rw [hcase]
    refine isJsonArray_of_size (buildJson_isJsonArrayOfSize (cstrlen bs) (bytesOk_take _ ?_))
    simpa [DmtxEnv.msgBytesOk, hm, hout] using hb

theorem scanImageBuffer_output_json_array_witness :
    IsJsonArray emptyJson :=
  scanImageBuffer_output_json_array (some [0, 0, 0, 0]) 1 1 (mkEnv none) emptyJson
    (by decide) (by decide)

/-- C3: whenever the decode succeeds with a non-empty payload (and the JSON
buffer `malloc` succeeds), `scanImageBuffer` returns exactly the
single-detection string `[{"data":"<text>"}]`, a JSON array with exactly one
element; and for every input whatsoever, any returned string is a JSON
array with zero or one elements — never more than one. -/
theorem scanImageBuffer_single_detection (rgba : Option (List Nat)) (w h : Int)
    (env : DmtxEnv) :
    (∀ m bs, rgba ≠ none → 0 < w → 0 < h →
        env.imageOk = true → env.decodeOk = true →
        env.msg = some m → m.output = some bs → 0 < cstrlen bs →
        env.mallocOk = true → bytesOk bs = true →
        (scanImageBuffer rgba w h env).ret = some (buildJson bs (cstrlen bs)) ∧
          IsJsonArrayOfSize 1 (buildJson bs (cstrlen bs))) ∧
    (∀ s, (scanImageBuffer rgba w h env).ret = some s → env.msgBytesOk = true →
        IsJsonArrayOfSize 0 s ∨ IsJsonArrayOfSize 1 s) := by
  constructor
  · intro m bs hrgba hw hh hio hdo hm hout hlen hma hbytes
    refine ⟨scan_success_eq rgba w h env m bs hrgba hw hh hio hdo hm hout hlen hma, ?_⟩
    exact buildJson_isJsonArrayOfSize (cstrlen bs) (bytesOk_take _ hbytes)
  · intro s hs hb
    rcases scan_ret_cases rgba w h env s hs with hcase | ⟨m, bs, hm, hout, hlen, hma, hcase⟩
    · rw [hcase]
      exact Or.inl emptyJson_isJsonArrayOfSize
    · rw [hcase]
      refine Or.inr (buildJson_isJsonArrayOfSize (cstrlen bs) (bytesOk_take _ ?_))
      simpa [DmtxEnv.msgBytesOk, hm, hout] using hb

theorem scanImageBuffer_single_detection_witness :
    (scanImageBuffer (some [1, 2, 3, 4]) 1 1 (mkEnv (some ⟨some [0x41, 0x31], 2⟩))).ret
        = some (buildJson [0x41, 0x31] (cstrlen [0x41, 0x31])) ∧
      IsJsonArrayOfSize 1 (buildJson [0x41, 0x31] (cstrlen [0x41, 0x31])) :=
  (scanImageBuffer_single_detection (some [1, 2, 3, 4]) 1 1
      (mkEnv (some ⟨some [0x41, 0x31], 2⟩))).1
    ⟨some [0x41, 0x31], 2⟩ [0x41, 0x31] (by decide) (by decide) (by decide) rfl rfl rfl rfl
    (by decide) rfl (by decide)

/-- The invalid-input test of line 36, stated via `Option.isNone` as in the
embedding, is the same condition as `rgba = none ∨ w ≤ 0 ∨ h ≤ 0`. -/
theorem invalid_cond_iff (rgba : Option (List Nat)) (w h : Int) :
    (rgba.isNone = true ∨ w ≤ 0 ∨ h ≤ 0) ↔ (rgba = none ∨ w ≤ 0 ∨ h ≤ 0) := by
  cases rgba <;> simp

/-- C4: the serialization escapes each backslash (`0x5C`) and double quote
(`0x22`) by prefixing a backslash, replaces every byte below `0x20` with
`?`, and passes every other byte — including bytes ≥ 0x80 — through
unchanged; in particular a decoded payload `A"B\C` makes the whole call
return `[{"data":"A\"B\\C"}]`. -/
theorem scanImageBuffer_escape_policy :
    (∀ c : Nat, c = 0x5C ∨ c = 0x22 → escapeByte c = [0x5C, c]) ∧
    (∀ c : Nat, c < 0x20 → escapeByte c = [0x3F]) ∧
    (∀ c : Nat, 0x20 ≤ c → c ≠ 0x5C → c ≠ 0x22 → escapeByte c = [c]) ∧
    (scanImageBuffer (some [0, 0, 0, 0]) 1 1
        (mkEnv (some ⟨some [0x41, 0x22, 0x42, 0x5C, 0x43], 5⟩))).ret
      = some (jsonHeader ++ [0x41, 0x5C, 0x22, 0x42, 0x5C, 0x5C, 0x43] ++ jsonFooter) := by
  refine ⟨?_, ?_, ?_, by decide⟩
  · intro c hc
    unfold escapeByte
    rw [if_pos hc]
  · intro c hc
    unfold escapeByte
    rw [if_neg (by omega), if_neg (by omega)]
  · intro c h1 h2 h3
    unfold escapeByte
    rw [if_neg (by tauto), if_pos h1]

theorem scanImageBuffer_escape_policy_witness :
    escapeByte 0x5C = [0x5C, 0x5C] :=
  scanImageBuffer_escape_policy.1 0x5C (Or.inl rfl)

/-- C5: every failure class — image creation failure, decoder creation
failure, no message from the decode pass, or an absent or empty decoded
output — collapses to the same observable result, the string `"[]"`
(whenever the allocation inside `strdup_malloc` succeeds); no failure propagates
anything else across the boundary. -/
theorem scanImageBuffer_failures_collapse (rgba : Option (List Nat)) (w h : Int)
    (env : DmtxEnv) (hsd : env.strdupOk = true)
    (hfail : env.imageOk = false ∨ env.decodeOk = false ∨ env.msg = none ∨
      ∃ m, env.msg = some m ∧ (m.output = none ∨ cstrlen (m.output.getD []) = 0)) :
    (scanImageBuffer rgba w h env).ret = some emptyJson :=
  scan_fail_eq rgba w h env hsd (Or.inr hfail)

theorem scanImageBuffer_failures_collapse_witness :
    (scanImageBuffer (some [0, 0, 0, 0]) 3 3
        ⟨false, true, none, true, true⟩).ret = some emptyJson :=
  scanImageBuffer_failures_collapse (some [0, 0, 0, 0]) 3 3
    ⟨false, true, none, true, true⟩ rfl (Or.inl rfl)

/-- C6: the `else if` branch of line 62 is dead code: its condition repeats
`msg->output != NULL`, which is false whenever the first branch was not
taken, so the branch never runs, and when `msg->output` is NULL the
variables keep their initial values `outStr = NULL`, `outLen = 0`. -/
theorem computeOut_dead_branch (m : DmtxMessage) :
    (computeOut m).deadBranch = false ∧
    (m.output = none → (computeOut m).outStr = none ∧ (computeOut m).outLen = 0) := by
  rcases m with ⟨mo, mlen⟩
  cases mo with
  | none => exact ⟨by simp [computeOut], fun _ => by simp [computeOut]⟩
  | some bs => exact ⟨by simp [computeOut], fun hcon => by simp at hcon⟩

theorem computeOut_dead_branch_witness :
    (computeOut ⟨none, 5⟩).deadBranch = false ∧
    ((computeOut ⟨none, 5⟩).outStr = none ∧ (computeOut ⟨none, 5⟩).outLen = 0) :=
  ⟨(computeOut_dead_branch ⟨none, 5⟩).1, (computeOut_dead_branch ⟨none, 5⟩).2 rfl⟩

/-- C7: on every exit path of `scanImageBuffer`, the resources successfully
created during the call are destroyed exactly once before the return (in
reverse creation order), and no call returns with a live intermediate
handle: the destruction list is the reversal of the duplicate-free creation
list. -/
theorem scanImageBuffer_resource_discipline (rgba : Option (List Nat)) (w h : Int)
    (env : DmtxEnv) :
    (scanImageBuffer rgba w h env).destroyed =
        (scanImageBuffer rgba w h env).created.reverse ∧
    (scanImageBuffer rgba w h env).created.Nodup := by
  unfold scanImageBuffer
  split
  · exact ⟨rfl, by simp⟩
  · split
    · exact ⟨rfl, by simp⟩
    · split
      · exact ⟨rfl, by simp⟩
      · split
        · exact ⟨rfl, by simp⟩
        · exact ⟨rfl, by simp⟩

/-- C8: for every decoded output, the JSON construction writes at most
`2*outLen + 14` bytes including the terminating NUL, which is within the
`2*outLen + 64` bytes allocated for the buffer, so the serialization stays
in bounds. -/
theorem buildJson_within_bounds (outStr : List Nat) (outLen : Nat) :
    (buildJson outStr outLen).length + 1 ≤ 2 * outLen + 14 ∧
    (buildJson outStr outLen).length + 1 ≤ 2 * outLen + 64 := by
  have h1 : (escapeBytes (outStr.take outLen)).length ≤ 2 * (outStr.take outLen).length :=
    escapeBytes_length_le _
  have h2 : (outStr.take outLen).length ≤ outLen := by
    simp [List.length_take]
  have h3 : (buildJson outStr outLen).length =
      10 + ((escapeBytes (outStr.take outLen)).length + 3) := by
    simp [buildJson, jsonHeader, jsonFooter]
    omega
  omega

/-- C9: the payload length is taken with `strlen`, so the serialized data
field holds exactly the decoded bytes before the first NUL: a payload with
an embedded `0x00` is truncated there, and a payload whose first byte is
NUL counts as empty and yields `"[]"`. -/
theorem scanImageBuffer_strlen_truncation (rgba : Option (List Nat)) (w h : Int)
    (env : DmtxEnv) (m : DmtxMessage) (bs : List Nat)
    (hrgba : rgba ≠ none) (hw : 0 < w) (hh : 0 < h)
    (hio : env.imageOk = true) (hdo : env.decodeOk = true)
    (hm : env.msg = some m) (hbs : m.output = some bs)
    (hma : env.mallocOk = true) (hsd : env.strdupOk = true) :
    (0 < cstrlen bs →
      (scanImageBuffer rgba w h env).ret =
        some (jsonHeader ++ escapeBytes (bs.takeWhile (fun c => c != 0)) ++ jsonFooter)) ∧
    (cstrlen bs = 0 →
      (scanImageBuffer rgba w h env).ret = some emptyJson) := by
  constructor
  · intro hpos
    rw [scan_success_eq rgba w h env m bs hrgba hw hh hio hdo hm hbs hpos hma]
    rw [buildJson, take_cstrlen]
  · intro hzero
    exact scan_fail_eq rgba w h env hsd
      (Or.inr (Or.inr (Or.inr (Or.inr ⟨m, hm, Or.inr (by rw [hbs]; simpa using hzero)⟩))))

theorem scanImageBuffer_strlen_truncation_witness :
    (scanImageBuffer (some [9, 9, 9, 9]) 2 2
        (mkEnv (some ⟨some [0x41, 0x00, 0x42], 3⟩))).ret =
      some (jsonHeader ++
        escapeBytes ([0x41, 0x00, 0x42].takeWhile (fun c => c != 0)) ++ jsonFooter) :=
  (scanImageBuffer_strlen_truncation (some [9, 9, 9, 9]) 2 2
      (mkEnv (some ⟨some [0x41, 0x00, 0x42], 3⟩))
      ⟨some [0x41, 0x00, 0x42], 3⟩ [0x41, 0x00, 0x42]
      (by decide) (by decide) (by decide) rfl rfl rfl rfl rfl rfl).1 (by decide)

/-- Branch analysis of `scanImageBuffer` under `strdup_malloc` allocation
failure: every arm except the successful-decode one returns
`strdup_malloc("[]")`, which is NULL, so a non-NULL return can only come
from the successful-decode path. -/
theorem scan_ret_some_strdup_fail (rgba : Option (List Nat)) (w h : Int) (env : DmtxEnv)
    (hsd : env.strdupOk = false) (s : List Nat)
    (hs : (scanImageBuffer rgba w h env).ret = some s) :
    ∃ m bs, env.msg = some m ∧ m.output = some bs ∧ 0 < cstrlen bs ∧
      env.mallocOk = true ∧ s = buildJson bs (cstrlen bs) := by
  unfold scanImageBuffer at hs
  split at hs
  · simp [strdup_malloc, hsd] at hs
  · split at hs
    · simp [strdup_malloc, hsd] at hs
    · split at hs
      · simp [strdup_malloc, hsd] at hs
      · split at hs
        · simp [strdup_malloc, hsd] at hs
        · rename_i m heq
          rcases m with ⟨mo, mlen⟩
          cases mo with
          | none =>
              simp [computeOut, strdup_malloc, hsd] at hs
          | some bs =>
              simp [computeOut] at hs
              split at hs
              · split at hs
                · rename_i hlen hma
                  exact ⟨⟨some bs, mlen⟩, bs, heq, rfl, hlen, hma,
                    (Option.some_injective _ hs).symm⟩
                · simp [strdup_malloc, hsd] at hs
              · simp [strdup_malloc, hsd] at hs

/-- C10: when the `malloc` inside `strdup_malloc` fails, every `"[]"` return
path of `scanImageBuffer` returns NULL rather than a JSON string: the
invalid-input path (line 37), the image-creation-failure path (line 42),
the decoder-creation-failure path (line 45), the no-message path (line 51),
the absent-or-empty-decoded-output path (line 89), and the fallback path
taken when the JSON-buffer `malloc` also fails (line 73); indeed the only
way the call returns a non-NULL string at all is the successful-decode
path, which does not go through `strdup_malloc`. -/
theorem scanImageBuffer_null_on_alloc_failure (rgba : Option (List Nat)) (w h : Int)
    (env : DmtxEnv) (hsd : env.strdupOk = false) :
    ((rgba = none ∨ w ≤ 0 ∨ h ≤ 0) → (scanImageBuffer rgba w h env).ret = none) ∧
    (env.imageOk = false → (scanImageBuffer rgba w h env).ret = none) ∧
    (env.decodeOk = false → (scanImageBuffer rgba w h env).ret = none) ∧
    (env.msg = none → (scanImageBuffer rgba w h env).ret = none) ∧
    (∀ m, env.msg = some m → m.output = none ∨ cstrlen (m.output.getD []) = 0 →
      (scanImageBuffer rgba w h env).ret = none) ∧
    (env.mallocOk = false → (scanImageBuffer rgba w h env).ret = none) ∧
    (∀ s, (scanImageBuffer rgba w h env).ret = some s →
      ∃ m bs, env.msg = some m ∧ m.output = some bs ∧ 0 < cstrlen bs ∧
        env.mallocOk = true ∧ s = buildJson bs (cstrlen bs)) := by
  have hkey := scan_ret_some_strdup_fail rgba w h env hsd
  have hofn : (∀ m bs, env.msg = some m → m.output = some bs →
      0 < cstrlen bs → env.mallocOk = true → False) →
      (scanImageBuffer rgba w h env).ret = none := by
    intro hcon
    cases hret : (scanImageBuffer rgba w h env).ret with
    | none => rfl
    | some s =>
        rcases hkey s hret with ⟨m, bs, hm, hb, hl, hma, _⟩
        exact (hcon m bs hm hb hl hma).elim
  refine ⟨?_, ?_, ?_, ?_, ?_, ?_, hkey⟩
  · intro hinv
    unfold scanImageBuffer
    rw [if_pos ((invalid_cond_iff rgba w h).mpr hinv)]
    simp [strdup_malloc, hsd]
  · intro h2
    unfold scanImageBuffer
    split <;> simp [strdup_malloc, hsd]
  · intro h3
    unfold scanImageBuffer
    split
    · simp [strdup_malloc, hsd]
    · split <;> simp [strdup_malloc, hsd]
  · intro h4
    refine hofn (fun m bs hm _ _ _ => ?_)
    rw [h4] at hm
    exact Option.noConfusion hm
  · intro m hm hout
    refine hofn (fun m' bs hm' hb hl _ => ?_)
    rw [hm] at hm'
    have hmeq : m = m' := Option.some_injective _ hm'
    subst hmeq
    rcases hout with hout | hout
    · rw [hout] at hb
      exact Option.noConfusion hb
    · rw [hb] at hout
      simp only [Option.getD_some] at hout
      omega
  · intro h6
    refine hofn (fun m bs _ _ _ hma => ?_)
    rw [h6] at hma
    exact Bool.noConfusion hma

theorem scanImageBuffer_null_on_alloc_failure_witness :
    (scanImageBuffer (some [0, 0, 0, 0]) 4 4 ⟨false, true, none, true, false⟩).ret = none ∧
    (scanImageBuffer (some [0, 0, 0, 0]) 4 4
        ⟨true, true, some ⟨some [0x41], 1⟩, false, false⟩).ret = none ∧
    (scanImageBuffer none 4 4 ⟨true, true, none, true, false⟩).ret = none :=
  ⟨(scanImageBuffer_null_on_alloc_failure (some [0, 0, 0, 0]) 4 4
      ⟨false, true, none, true, false⟩ rfl).2.1 rfl,
   (scanImageBuffer_null_on_alloc_failure (some [0, 0, 0, 0]) 4 4
      ⟨true, true, some ⟨some [0x41], 1⟩, false, false⟩ rfl).2.2.2.2.2.1 rfl,
   (scanImageBuffer_null_on_alloc_failure none 4 4 ⟨true, true, none, true, false⟩ rfl).1
     (Or.inl rfl)⟩

end DatamatrixWrapper
